import Mathlib

/-!
Verification of the connection-multiplexing bridge (internal/bridge/bridge.go).

Strings are modelled as lists of characters.  The helpers below embed the
library functions the source uses: strings.TrimSpace, strings.SplitN with
limit 2, and the fmt.Sprintf joins used to encode protocol lines.
-/

namespace GiBridge

/-- A Go string, modelled as a list of characters. -/
abbrev Str := List Char

/-- Embedding of unicode.IsSpace, used by strings.TrimSpace: the white-space
code points recognised by Go. -/
def isSpaceGo (c : Char) : Bool :=
  c == ' ' || c == '\t' || c == '\n' || c == '\x0B' || c == '\x0C' || c == '\r' ||
  c == '\x85' || c == '\xA0' || c == ' ' ||
  c == ' ' || c == ' ' || c == ' ' || c == ' ' || c == ' ' ||
  c == ' ' || c == ' ' || c == ' ' || c == ' ' || c == ' ' ||
  c == ' ' || c == ' ' || c == ' ' || c == ' ' || c == ' ' ||
  c == '　'

/-- Left half of strings.TrimSpace: drop leading white space. -/
def trimLeft (s : Str) : Str := s.dropWhile isSpaceGo

/-- Right half of strings.TrimSpace: drop trailing white space. -/
def trimRight (s : Str) : Str := (s.reverse.dropWhile isSpaceGo).reverse

/-- Embedding of strings.TrimSpace: drop leading, then trailing white space. -/
def trimSpace (s : Str) : Str := trimRight (trimLeft s)

/-- Whether a string starts with a white-space character (false on empty). -/
def headIsSpace : Str → Bool
  | [] => false
  | c :: _ => isSpaceGo c

/-- Whether a string ends with a white-space character (false on empty). -/
def lastIsSpace (s : Str) : Bool := headIsSpace s.reverse

/-- Split a string at the first colon, the delimiter of the line protocol
(const delim = ":" in bridge.go); none when no colon occurs. -/
def splitFirst : Str → Option (Str × Str)
  | [] => none
  | c :: cs =>
    if c = ':' then some ([], cs)
    else
      match splitFirst cs with
      | none => none
      | some p => some (c :: p.1, p.2)

/-- Embedding of strings.SplitN(s, ":", 2) as used in handleIncoming:
one element when the string has no delimiter, otherwise the part before the
first delimiter and the untouched remainder. -/
def splitN2 (s : Str) : List Str :=
  match splitFirst s with
  | none => [s]
  | some p => [p.1, p.2]

/-- Encoding of a three-part protocol line, mirroring
fmt.Sprintf("%s:%s:%s\n", tag, a, b) in handleOutgoing. -/
def encode3 (tag a b : Str) : Str :=
  tag ++ (':' :: (a ++ (':' :: (b ++ ['\n']))))

/-- Decoding as performed by handleIncoming (bridge.go): TrimSpace the raw
line, then SplitN on the first delimiter; a line that does not split into two
fields is a format error, rendered here as none. -/
def decode (line : Str) : Option (Str × Str) :=
  match splitN2 (trimSpace line) with
  | [a, b] => some (a, b)
  | _ => none

/-! ### Lemmas about the string primitives -/

lemma headIsSpace_dropWhile (s : Str) :
    headIsSpace (s.dropWhile isSpaceGo) = false := by
  induction s with
  | nil => rfl
  | cons c cs ih =>
    by_cases h : isSpaceGo c
    · simpa [List.dropWhile_cons, h] using ih
    · simp [List.dropWhile_cons, h, headIsSpace]

lemma trimLeft_eq_self (s : Str) (h : headIsSpace s = false) :
    trimLeft s = s := by
  cases s with
  | nil => rfl
  | cons c cs =>
    simp only [headIsSpace] at h
    simp [trimLeft, List.dropWhile_cons, h]

lemma trimRight_eq_self (s : Str) (h : lastIsSpace s = false) :
    trimRight s = s := by
  unfold trimRight
  have h2 : trimLeft s.reverse = s.reverse := trimLeft_eq_self s.reverse h
  unfold trimLeft at h2
  rw [h2, List.reverse_reverse]

lemma dropWhile_append_single (p : Char → Bool) (l : Str) (c : Char)
    (h : p c = false) :
    List.dropWhile p (l ++ [c]) = List.dropWhile p l ++ [c] := by
  induction l with
  | nil => simp [List.dropWhile_cons, h]
  | cons a as ih =>
    by_cases ha : p a
    · simp [List.dropWhile_cons, ha, ih]
    · simp [List.dropWhile_cons, ha]

lemma trimRight_cons (c : Char) (cs : Str) (h : isSpaceGo c = false) :
    trimRight (c :: cs) = c :: trimRight cs := by
  unfold trimRight
  rw [List.reverse_cons, dropWhile_append_single _ _ _ h]
  simp

lemma headIsSpace_trimRight (s : Str) (h : headIsSpace s = false) :
    headIsSpace (trimRight s) = false := by
  cases s with
  | nil => rfl
  | cons c cs =>
    simp only [headIsSpace] at h
    rw [trimRight_cons c cs h]
    simpa [headIsSpace] using h

lemma headIsSpace_trimSpace (s : Str) : headIsSpace (trimSpace s) = false := by
  unfold trimSpace
  exact headIsSpace_trimRight _ (headIsSpace_dropWhile s)

lemma lastIsSpace_trimSpace (s : Str) : lastIsSpace (trimSpace s) = false := by
  unfold trimSpace trimRight lastIsSpace
  rw [List.reverse_reverse]
  exact headIsSpace_dropWhile _

lemma trimRight_append_space (s : Str) (c : Char) (h : isSpaceGo c = true) :
    trimRight (s ++ [c]) = trimRight s := by
  unfold trimRight
  rw [List.reverse_append]
  simp [List.dropWhile_cons, h]

lemma isSpaceGo_colon : isSpaceGo ':' = false := by decide

lemma isSpaceGo_newline : isSpaceGo '\n' = true := by decide

lemma headIsSpace_append_colon (l r : Str) (h : headIsSpace l = false) :
    headIsSpace (l ++ (':' :: r)) = false := by
  cases l with
  | nil => simpa [headIsSpace] using isSpaceGo_colon
  | cons c cs => simpa [headIsSpace] using h

lemma lastIsSpace_append_colon (l r : Str) (h : lastIsSpace r = false) :
    lastIsSpace (l ++ (':' :: r)) = false := by
  unfold lastIsSpace at *
  rw [List.reverse_append, List.reverse_cons]
  cases hr : r.reverse with
  | nil => simpa [headIsSpace] using isSpaceGo_colon
  | cons c cs =>
    rw [hr] at h
    simpa [headIsSpace] using h

/-- Trimming a colon-joined line with a trailing newline recovers the line,
provided the line neither starts nor ends with white space. -/
lemma trimSpace_colon_line (l r : Str) (h1 : headIsSpace l = false)
    (h2 : lastIsSpace r = false) :
    trimSpace ((l ++ (':' :: r)) ++ ['\n']) = l ++ (':' :: r) := by
  have hhead : headIsSpace (l ++ (':' :: r)) = false :=
    headIsSpace_append_colon l r h1
  have hlast : lastIsSpace (l ++ (':' :: r)) = false :=
    lastIsSpace_append_colon l r h2
  have hne : headIsSpace ((l ++ (':' :: r)) ++ ['\n']) = false := by
    cases l with
    | nil => simpa [headIsSpace] using isSpaceGo_colon
    | cons c cs => simpa [headIsSpace] using hhead
  unfold trimSpace
  rw [trimLeft_eq_self _ hne, trimRight_append_space _ _ isSpaceGo_newline,
    trimRight_eq_self _ hlast]

lemma splitFirst_append (a b : Str) (h : ':' ∉ a) :
    splitFirst (a ++ (':' :: b)) = some (a, b) := by
  induction a with
  | nil => simp [splitFirst]
  | cons c cs ih =>
    have hc : c ≠ ':' := fun hc => h (by simp [hc])
    have hcs : ':' ∉ cs := fun hm => h (by simp [hm])
    simp [splitFirst, hc, ih hcs]

lemma splitN2_append (a b : Str) (h : ':' ∉ a) :
    splitN2 (a ++ (':' :: b)) = [a, b] := by
  simp [splitN2, splitFirst_append a b h]

/-! ### The stdio Ingress Handler (handleIncoming) -/

/-- How a blocking read loop ends: the read error it finally sees.
io.EOF and io.ErrClosedPipe are distinguished from every other error,
mirroring the checks in handleIncoming and handleOutgoing. -/
inductive ReadEnd where
  | eof
  | closedPipe
  | otherErr
deriving DecidableEq

/-- Whether the final read error is fatal for the loop: only an error other
than io.EOF and io.ErrClosedPipe is returned as an error. -/
def readEndFatal : ReadEnd → Bool
  | ReadEnd.otherErr => true
  | _ => false

/-- Observable outcome of one iteration of handleIncoming on one line. -/
inductive InEv where
  | written (port : Str) (bytes : Str)
  | warnSyntax (text : Str)
  | warnNoConn (port : Str)
  | warnWriteFail (port : Str) (bytes : Str)
deriving DecidableEq

/-- Body of the handleIncoming loop for one line (bridge.go): TrimSpace the
line, SplitN on the first delimiter; on a non two-field split log a syntax
warning; on a registry miss log a missing-connection warning; otherwise write
the raw bytes of the second field to the connection, logging a warning when
the write fails.  conns is the set of registered identifiers of connMap and
writeOk the outcome of conn.Write for this iteration. -/
def processIncoming (conns : List Str) (writeOk : Bool) (data : Str) : InEv :=
  let text := trimSpace data
  match splitN2 text with
  | [port, expr] =>
    if conns.contains port then
      if writeOk then InEv.written port expr else InEv.warnWriteFail port expr
    else InEv.warnNoConn port
  | _ => InEv.warnSyntax text

/-- The handleIncoming loop over a finite run: the lines successfully read
(each paired with the outcome of that iteration's connection write) and the
read result that ends the loop.  Returns the per-line outcomes and whether
the loop returned an error. -/
def handleIncoming (conns : List Str) :
    List (Str × Bool) → ReadEnd → List InEv × Bool
  | [], fin => ([], readEndFatal fin)
  | (data, wOk) :: rest, fin =>
    let r := handleIncoming conns rest fin
    (processIncoming conns wOk data :: r.1, r.2)

lemma handleIncoming_err (conns : List Str) (lines : List (Str × Bool))
    (fin : ReadEnd) : (handleIncoming conns lines fin).2 = readEndFatal fin := by
  induction lines with
  | nil => rfl
  | cons p rest ih => cases p with | mk d w => simpa [handleIncoming] using ih

lemma handleIncoming_len (conns : List Str) (lines : List (Str × Bool))
    (fin : ReadEnd) :
    (handleIncoming conns lines fin).1.length = lines.length := by
  induction lines with
  | nil => rfl
  | cons p rest ih => cases p with | mk d w => simpa [handleIncoming] using ih

/-! ### The Egress Handler (handleOutgoing) -/

/-- Outcome of the upstream WriteString plus Flush pair for one receive
event: both succeed, the buffered write itself fails, or the flush fails. -/
inductive WriteOutcome where
  | ok
  | writeErr
  | flushErr
deriving DecidableEq

/-- A protocol event written to the upstream output stream. -/
inductive Ev where
  | connect (id : Str)
  | disconnect (id : Str)
  | receive (id : Str) (payload : Str)
deriving DecidableEq

/-- The for loop of handleOutgoing (bridge.go): each line read from the
socket is trimmed and emitted as a receive event; a WriteString failure is
logged and the loop continues with the next line (that event is dropped); a
Flush failure returns an error; the loop ends cleanly on io.EOF or
io.ErrClosedPipe and with an error on any other read error.  Returns the
events delivered upstream and whether the loop body returned an error. -/
def handleOutgoingLoop (port : Str) :
    List (Str × WriteOutcome) → ReadEnd → List Ev × Bool
  | [], fin => ([], readEndFatal fin)
  | (data, WriteOutcome.ok) :: rest, fin =>
    let r := handleOutgoingLoop port rest fin
    (Ev.receive port (trimSpace data) :: r.1, r.2)
  | (_, WriteOutcome.writeErr) :: rest, fin => handleOutgoingLoop port rest fin
  | (_, WriteOutcome.flushErr) :: _, _ => ([], true)

/-- What a full run of handleOutgoing leaves behind. -/
structure EgressResult where
  events : List Ev
  removed : Bool
  closed : Bool
  isError : Bool
deriving DecidableEq

/-- handleOutgoing (bridge.go): run the loop, then the deferred block on
every exit path: write the disconnect event (a failure is only logged, here
disconnectWriteOk records whether it reached upstream), delete the
identifier from connMap and close the connection.  The deferred block never
changes the returned error. -/
def handleOutgoing (port : Str) (lines : List (Str × WriteOutcome))
    (fin : ReadEnd) (disconnectWriteOk : Bool) : EgressResult :=
  let r := handleOutgoingLoop port lines fin
  { events := r.1 ++ (if disconnectWriteOk then [Ev.disconnect port] else []),
    removed := true,
    closed := true,
    isError := r.2 }

/-- Whether an event is a receive event of the given connection. -/
def isReceiveFrom (port : Str) : Ev → Bool
  | Ev.receive p _ => p == port
  | _ => false

/-- The events mentioning one accepted connection, in program order: the
connect event flushed by handleAccept before the Egress Handler is spawned,
then everything the handler delivers upstream.  disconnectWriteOk records
whether the best-effort deferred disconnect write reaches the stream; it can
fail, for instance after a sticky flush error on the handler's buffered
writer or once the group's context is cancelled. -/
def connectionTrace (port : Str) (lines : List (Str × WriteOutcome))
    (fin : ReadEnd) (disconnectWriteOk : Bool) : List Ev :=
  Ev.connect port :: (handleOutgoing port lines fin disconnectWriteOk).events

lemma handleOutgoingLoop_all_receive (port : Str)
    (lines : List (Str × WriteOutcome)) (fin : ReadEnd) :
    ((handleOutgoingLoop port lines fin).1.all (isReceiveFrom port)) = true := by
  induction lines with
  | nil => rfl
  | cons p rest ih =>
    cases p with
    | mk d w =>
      cases w with
      | ok => simpa [handleOutgoingLoop, isReceiveFrom] using ih
      | writeErr => simpa [handleOutgoingLoop] using ih
      | flushErr => rfl

/-! ### The TCP Acceptor (handleAccept) -/

/-- Result of one listener.Accept iteration.  accepted p abstracts a
successful accept whose remote address splits to port p and whose
connect-event write and flush succeed; tempErr a net.Error whose Temporary
method returns true; permErr any other accept error. -/
inductive AcceptOutcome where
  | accepted (port : Str)
  | tempErr
  | permErr
deriving DecidableEq

/-- What a finite prefix of the handleAccept loop leaves behind: the connect
events written, the ports registered and spawned (in order), the warnings
the loop logged, and whether it returned a fatal error. -/
structure AcceptRun where
  events : List Ev
  registered : List Str
  warnings : List Str
  isError : Bool
deriving DecidableEq

/-- The handleAccept loop (bridge.go) over a finite prefix of accept
results.  A temporary net.Error makes the loop continue with the next
accept; no log statement executes on that path (the branch body is a bare
continue), so nothing is appended to the warnings.  Any other accept error
returns an error at once.  A success registers the port, writes the connect
event and spawns the Egress Handler; this loop has no log call on any
path. -/
def handleAccept : List AcceptOutcome → AcceptRun
  | [] => ⟨[], [], [], false⟩
  | AcceptOutcome.accepted p :: rest =>
    let r := handleAccept rest
    ⟨Ev.connect p :: r.events, p :: r.registered, r.warnings, r.isError⟩
  | AcceptOutcome.tempErr :: rest => handleAccept rest
  | AcceptOutcome.permErr :: _ => ⟨[], [], [], true⟩

lemma handleAccept_no_warnings (outs : List AcceptOutcome) :
    (handleAccept outs).warnings = [] := by
  induction outs with
  | nil => rfl
  | cons o rest ih =>
    cases o with
    | accepted p => simpa [handleAccept] using ih
    | tempErr => simpa [handleAccept] using ih
    | permErr => rfl

/-! ### Claim theorems -/

/-- Claim C1, amended: handleIncoming trims the whole line before splitting,
so for a registered identifier with no delimiter and no leading white space,
and a payload with no trailing white space, exactly the bytes of expr are
written to the connection, with nothing appended. -/
theorem written_bytes_exact (conns : List Str) (id expr : Str)
    (hid : ':' ∉ id) (h1 : headIsSpace id = false)
    (h2 : lastIsSpace expr = false) (hreg : conns.contains id = true) :
    processIncoming conns true ((id ++ (':' :: expr)) ++ ['\n'])
      = InEv.written id expr := by
  simp only [processIncoming, trimSpace_colon_line id expr h1 h2,
    splitN2_append id expr hid, hreg, if_true]

/-- Witness for written_bytes_exact at the command line p:hi. -/
theorem written_bytes_exact_witness :
    (':' ∉ (['p'] : Str)) ∧ headIsSpace (['p'] : Str) = false ∧
    lastIsSpace (['h', 'i'] : Str) = false ∧
    (([['p']] : List Str).contains ['p']) = true ∧
    processIncoming [['p']] true (((['p'] : Str) ++ (':' :: ['h', 'i'])) ++ ['\n'])
      = InEv.written ['p'] ['h', 'i'] :=
  ⟨by decide, by decide, by decide, by decide,
    written_bytes_exact [['p']] ['p'] ['h', 'i']
      (by decide) (by decide) (by decide) (by decide)⟩

/-- Counterexample to claim C1 as stated: for the command line p:hi followed
by a blank and the newline, with p registered, the code writes hi, not the
exact bytes of the expr field (hi and a blank): the line is trimmed first. -/
theorem incoming_trailing_space_cex :
    processIncoming [['p']] true ['p', ':', 'h', 'i', ' ', '\n']
      = InEv.written ['p'] ['h', 'i'] ∧
    InEv.written (['p'] : Str) ['h', 'i'] ≠ InEv.written ['p'] ['h', 'i', ' '] :=
  ⟨by decide, by decide⟩

/-- Claim C2, amended: the events mentioning one accepted connection are
exactly one connect event, then only receive events of that connection; when
the best-effort deferred disconnect write reaches the stream, exactly one
disconnect event follows the last receive event, and when it fails no
disconnect event is emitted at all. -/
theorem connect_receive_disconnect_order_amended (port : Str)
    (lines : List (Str × WriteOutcome)) (fin : ReadEnd) (dOk : Bool) :
    (∃ rs, connectionTrace port lines fin dOk
        = Ev.connect port
            :: (rs ++ (if dOk then [Ev.disconnect port] else [])) ∧
      rs.all (isReceiveFrom port) = true) ∧
    (connectionTrace port lines fin dOk).count (Ev.connect port) = 1 ∧
    (connectionTrace port lines fin dOk).count (Ev.disconnect port)
      = (if dOk then 1 else 0) := by
  have hall := handleOutgoingLoop_all_receive port lines fin
  have htrace : connectionTrace port lines fin dOk
      = Ev.connect port ::
          ((handleOutgoingLoop port lines fin).1
            ++ (if dOk then [Ev.disconnect port] else [])) := by
    simp [connectionTrace, handleOutgoing]
  have hnotin1 : Ev.connect port ∉ (handleOutgoingLoop port lines fin).1 := by
    intro hmem
    have hr := (List.all_eq_true.mp hall) _ hmem
    simp [isReceiveFrom] at hr
  have hnotin2 : Ev.disconnect port ∉ (handleOutgoingLoop port lines fin).1 := by
    intro hmem
    have hr := (List.all_eq_true.mp hall) _ hmem
    simp [isReceiveFrom] at hr
  refine ⟨⟨(handleOutgoingLoop port lines fin).1, htrace, hall⟩, ?_, ?_⟩
  · rw [htrace]
    cases dOk <;>
      simp [List.count_cons, List.count_append,
        List.count_eq_zero.mpr hnotin1]
  · rw [htrace]
    cases dOk <;>
      simp [List.count_cons, List.count_append,
        List.count_eq_zero.mpr hnotin2]

/-- Counterexample to claim C2 as stated: a handler whose loop dies on a
flush error and whose deferred best-effort disconnect write then also fails
(the buffered writer keeps its sticky error) emits no disconnect event at
all for its identifier, not exactly one. -/
theorem connect_without_disconnect_cex :
    (connectionTrace ['p'] [(['a', '\n'], WriteOutcome.flushErr)]
        ReadEnd.eof false).count (Ev.disconnect ['p']) = 0 ∧
    (connectionTrace ['p'] [(['a', '\n'], WriteOutcome.flushErr)]
        ReadEnd.eof false) = [Ev.connect ['p']] :=
  ⟨by decide, by decide⟩

/-- Claim C5: on every exit path of handleOutgoing, clean or error, the
deferred block removes the identifier from the registry and closes the
socket, the returned error is exactly the loop's own (the best-effort
disconnect write never escalates), and when the disconnect write succeeds
the disconnect event is the last one the handler emits. -/
theorem egress_cleanup_on_exit (port : Str) (lines : List (Str × WriteOutcome))
    (fin : ReadEnd) (dOk : Bool) :
    (handleOutgoing port lines fin dOk).removed = true ∧
    (handleOutgoing port lines fin dOk).closed = true ∧
    (handleOutgoing port lines fin dOk).isError
      = (handleOutgoingLoop port lines fin).2 ∧
    (handleOutgoing port lines fin true).events.getLast?
      = some (Ev.disconnect port) := by
  refine ⟨rfl, rfl, rfl, ?_⟩
  simp [handleOutgoing]

/-- Claim C6: the handleIncoming loop returns no error on io.EOF or
io.ErrClosedPipe and returns an error on any other read error, whatever
lines it processed before. -/
theorem incoming_stream_end_policy (conns : List Str)
    (lines : List (Str × Bool)) :
    (handleIncoming conns lines ReadEnd.eof).2 = false ∧
    (handleIncoming conns lines ReadEnd.closedPipe).2 = false ∧
    (handleIncoming conns lines ReadEnd.otherErr).2 = true := by
  refine ⟨?_, ?_, ?_⟩ <;> rw [handleIncoming_err] <;> rfl

/-- Claim C7: every line produces exactly one outcome and the loop goes on
to the next line, the loop's error depends only on the final read result,
and the three recoverable conditions each produce their warning: a line that
does not split into two fields, a registry miss, and a failed connection
write. -/
theorem incoming_recoverable_policy (conns : List Str)
    (lines : List (Str × Bool)) (fin : ReadEnd)
    (d1 d2 d3 p2 e2 p3 e3 : Str)
    (h1 : (splitN2 (trimSpace d1)).length ≠ 2)
    (h2 : splitN2 (trimSpace d2) = [p2, e2])
    (h2' : conns.contains p2 = false)
    (h3 : splitN2 (trimSpace d3) = [p3, e3])
    (h3' : conns.contains p3 = true) :
    (handleIncoming conns lines fin).1.length = lines.length ∧
    (handleIncoming conns lines fin).2 = readEndFatal fin ∧
    (∀ wOk, processIncoming conns wOk d1 = InEv.warnSyntax (trimSpace d1)) ∧
    processIncoming conns true d2 = InEv.warnNoConn p2 ∧
    processIncoming conns false d3 = InEv.warnWriteFail p3 e3 := by
  refine ⟨handleIncoming_len conns lines fin, handleIncoming_err conns lines fin,
    ?_, ?_, ?_⟩
  · intro wOk
    cases hs : splitFirst (trimSpace d1) with
    | none => simp [processIncoming, splitN2, hs]
    | some p =>
      exfalso
      apply h1
      simp [splitN2, hs]
  · have hm : p2 ∉ conns := by simpa using h2'
    simp [processIncoming, h2, hm]
  · have hm : p3 ∈ conns := by simpa using h3'
    simp [processIncoming, h3, hm]

/-- Witness for incoming_recoverable_policy: registry holding p, a line with
no delimiter, a command for the unregistered q, and a failed write of a
command for p. -/
theorem incoming_recoverable_policy_witness :
    ((splitN2 (trimSpace ['o', 'o', 'p', 's'])).length ≠ 2) ∧
    splitN2 (trimSpace ['q', ':', 'h', 'i', '\n']) = [['q'], ['h', 'i']] ∧
    (([['p']] : List Str).contains ['q']) = false ∧
    splitN2 (trimSpace ['p', ':', 'h', 'i', '\n']) = [['p'], ['h', 'i']] ∧
    (([['p']] : List Str).contains ['p']) = true ∧
    (handleIncoming [['p']] [(['p', ':', 'x', '\n'], true)] ReadEnd.eof).1.length
      = 1 ∧
    (handleIncoming [['p']] [(['p', ':', 'x', '\n'], true)] ReadEnd.eof).2
      = readEndFatal ReadEnd.eof ∧
    (∀ wOk, processIncoming [['p']] wOk ['o', 'o', 'p', 's']
      = InEv.warnSyntax (trimSpace ['o', 'o', 'p', 's'])) ∧
    processIncoming [['p']] true ['q', ':', 'h', 'i', '\n']
      = InEv.warnNoConn ['q'] ∧
    processIncoming [['p']] false ['p', ':', 'h', 'i', '\n']
      = InEv.warnWriteFail ['p'] ['h', 'i'] :=
  ⟨by decide, by decide, by decide, by decide, by decide,
    (incoming_recoverable_policy [['p']] [(['p', ':', 'x', '\n'], true)]
      ReadEnd.eof ['o', 'o', 'p', 's'] ['q', ':', 'h', 'i', '\n']
      ['p', ':', 'h', 'i', '\n'] ['q'] ['h', 'i'] ['p'] ['h', 'i']
      (by decide) (by decide) (by decide) (by decide) (by decide)).1,
    (incoming_recoverable_policy [['p']] [(['p', ':', 'x', '\n'], true)]
      ReadEnd.eof ['o', 'o', 'p', 's'] ['q', ':', 'h', 'i', '\n']
      ['p', ':', 'h', 'i', '\n'] ['q'] ['h', 'i'] ['p'] ['h', 'i']
      (by decide) (by decide) (by decide) (by decide) (by decide)).2⟩

/-- Claim C8, amended: a temporary accept error makes the loop silently
continue with the remaining accepts and logs nothing (the loop logs nothing
on any path), while any other accept error ends the loop at once with a
fatal error, whatever would have followed. -/
theorem accept_error_policy_amended (rest outs : List AcceptOutcome) :
    handleAccept (AcceptOutcome.tempErr :: rest) = handleAccept rest ∧
    (handleAccept outs).warnings = [] ∧
    handleAccept (AcceptOutcome.permErr :: rest) = ⟨[], [], [], true⟩ :=
  ⟨rfl, handleAccept_no_warnings outs, rfl⟩

/-- Counterexample to claim C8 as stated: a single temporary accept error
leaves the loop running with no error, but nothing is logged, while the
claim requires the error to be logged. -/
theorem accept_temp_error_unlogged_cex :
    (handleAccept [AcceptOutcome.tempErr]).warnings = [] ∧
    (handleAccept [AcceptOutcome.tempErr]).isError = false :=
  ⟨by decide, by decide⟩

/-- Claim C9, amended: a Flush failure ends the handleOutgoing loop at once
with an error, while a failure of the buffered WriteString itself is only
logged and the loop continues with the next line, dropping that event. -/
theorem flush_fatal_write_warned (port data : Str)
    (rest : List (Str × WriteOutcome)) (fin : ReadEnd) :
    handleOutgoingLoop port ((data, WriteOutcome.flushErr) :: rest) fin
      = ([], true) ∧
    handleOutgoingLoop port ((data, WriteOutcome.writeErr) :: rest) fin
      = handleOutgoingLoop port rest fin :=
  ⟨rfl, rfl⟩

/-- Counterexample to claim C9 as stated: a failed write of a receive event
is not fatal; the loop continues, delivers the next line and ends cleanly
with no error. -/
theorem receive_write_failure_not_fatal_cex :
    handleOutgoingLoop ['p']
        [(['a', '\n'], WriteOutcome.writeErr), (['b', '\n'], WriteOutcome.ok)]
        ReadEnd.eof
      = ([Ev.receive ['p'] ['b']], false) := by decide

/-- Claim C10, amended: the payload of every receive event is the socket
line with leading and trailing white space removed, hence never starts or
ends with white space; interior characters are preserved. -/
theorem receive_payload_trimmed (port data : Str)
    (rest : List (Str × WriteOutcome)) (fin : ReadEnd) :
    (handleOutgoingLoop port ((data, WriteOutcome.ok) :: rest) fin).1.head?
      = some (Ev.receive port (trimSpace data)) ∧
    headIsSpace (trimSpace data) = false ∧
    lastIsSpace (trimSpace data) = false :=
  ⟨rfl, headIsSpace_trimSpace data, lastIsSpace_trimSpace data⟩

/-- Counterexample to claim C10 as stated: a carriage return in the middle
of a socket line survives trimming and appears in the receive payload. -/
theorem receive_payload_interior_cr_cex :
    (handleOutgoingLoop ['p'] [(['a', '\r', 'b', '\n'], WriteOutcome.ok)]
        ReadEnd.eof).1
      = [Ev.receive ['p'] ['a', '\r', 'b']] ∧
    '\r' ∈ (['a', '\r', 'b'] : Str) :=
  ⟨by decide, by decide⟩

/-- Claim C4, amended: when the tag and the first field contain no delimiter,
the tag does not start with white space and the second field does not end
with white space, decoding the encoded line yields the tag and the joined
remainder, and re-splitting the remainder on its first delimiter
reconstructs the two fields. -/
theorem decode_encode_roundtrip (tag a b : Str)
    (htag : ':' ∉ tag) (ha : ':' ∉ a)
    (h1 : headIsSpace tag = false) (h2 : lastIsSpace b = false) :
    decode (encode3 tag a b) = some (tag, a ++ (':' :: b)) ∧
    splitN2 (a ++ (':' :: b)) = [a, b] := by
  constructor
  · have hshape : encode3 tag a b
        = (tag ++ (':' :: (a ++ (':' :: b)))) ++ ['\n'] := by
      simp [encode3]
    have hb : lastIsSpace (a ++ (':' :: b)) = false :=
      lastIsSpace_append_colon a b h2
    unfold decode
    rw [hshape, trimSpace_colon_line tag (a ++ (':' :: b)) h1 hb,
      splitN2_append tag (a ++ (':' :: b)) htag]
  · exact splitN2_append a b ha

/-- Witness for decode_encode_roundtrip on the receive line r:5:h:i, whose
second field itself contains the delimiter. -/
theorem decode_encode_roundtrip_witness :
    (':' ∉ (['r'] : Str)) ∧ (':' ∉ (['5'] : Str)) ∧
    headIsSpace (['r'] : Str) = false ∧
    lastIsSpace (['h', ':', 'i'] : Str) = false ∧
    decode (encode3 ['r'] ['5'] ['h', ':', 'i'])
      = some (['r'], (['5'] : Str) ++ (':' :: ['h', ':', 'i'])) ∧
    splitN2 ((['5'] : Str) ++ (':' :: ['h', ':', 'i']))
      = [['5'], ['h', ':', 'i']] :=
  ⟨by decide, by decide, by decide, by decide,
    (decode_encode_roundtrip ['r'] ['5'] ['h', ':', 'i']
      (by decide) (by decide) (by decide) (by decide)).1,
    (decode_encode_roundtrip ['r'] ['5'] ['h', ':', 'i']
      (by decide) (by decide) (by decide) (by decide)).2⟩

/-- Counterexample to claim C4 as stated: a tag containing the delimiter
does not round-trip, because decoding splits at the first delimiter, which
lies inside the tag. -/
theorem decode_encode_tag_delim_cex :
    decode (encode3 ['x', ':', 'y'] ['a'] ['b'])
      ≠ some ((['x', ':', 'y'] : Str), (['a'] : Str) ++ (':' :: ['b'])) := by
  decide

end GiBridge
